import Mathlib

/-!
Verification of the tf-mdp training core: a shallow embedding of
`tfmdp/planner.py`, `tfmdp/train/optimizer.py` and `tfmdp/train/policy.py`.

Tensors are modelled as rationals (scalars), lists of rationals (vectors) and
lists of lists of rationals (batched matrices); the TensorFlow session that
produces per-step loss/reward values is abstracted as a function from step
numbers to concrete values.  The real-valued bound transform of the policy
output layer is modelled over `ℝ` since it involves `exp` and `sigmoid`.
-/

/-! ## Lookup tables of `PolicyOptimizationPlanner` (planner.py, lines 25-52) -/

/-- Loss kinds of the `_loss_fn` table: `linear`, `mse`, `huber`. -/
inductive LossKind where
  | linear
  | mse
  | huber
deriving DecidableEq

/-- Optimizer kinds of the `_optimizers` table. -/
inductive OptKind where
  | Adadelta
  | Adagrad
  | Adam
  | GradientDescent
  | ProximalGradientDescent
  | ProximalAdagrad
  | RMSProp
deriving DecidableEq

/-- Activation kinds of the `_non_linearities` table (the key `none` maps to
the Python value `None`, modelled by the constructor `noneAct`). -/
inductive ActKind where
  | noneAct
  | sigmoid
  | tanh
  | relu
  | relu6
  | crelu
  | elu
  | selu
  | softplus
  | softsign
deriving DecidableEq

/-- Mean of a list of rationals; `tf.reduce_mean` on a vector. -/
def meanQ (xs : List ℚ) : ℚ := xs.sum / xs.length

/-- Huber loss element with the TensorFlow default `delta = 1.0`. -/
def huberElem (x : ℚ) : ℚ := if |x| ≤ 1 then x ^ 2 / 2 else |x| - 1 / 2

/-- Elementwise deviation-from-zero measured by each loss kind:
`tf.losses.absolute_difference(0, r)` uses `|r|`, `mean_squared_error` uses
`r^2`, `huber_loss` uses the standard robust loss. -/
def lossElem : LossKind → ℚ → ℚ
  | LossKind.linear, x => |x|
  | LossKind.mse, x => x ^ 2
  | LossKind.huber, x => huberElem x

/-- A `tf.losses.*(0, r)` call on a tensor `r`: the mean over the elements of
the elementwise deviation from the zero target. -/
def lossApply (k : LossKind) (r : List ℚ) : ℚ := meanQ (r.map (lossElem k))

/-- The `_loss_fn` lookup table (planner.py, lines 25-29): a dictionary from
names to loss lambdas; a missing key is `none` (Python `KeyError`). -/
def _loss_fn (name : String) : Option (List ℚ → ℚ) :=
  if name = "linear" then some (lossApply LossKind.linear)
  else if name = "mse" then some (lossApply LossKind.mse)
  else if name = "huber" then some (lossApply LossKind.huber)
  else none

/-- The `_non_linearities` lookup table (planner.py, lines 31-42). -/
def _non_linearities (name : String) : Option ActKind :=
  if name = "none" then some ActKind.noneAct
  else if name = "sigmoid" then some ActKind.sigmoid
  else if name = "tanh" then some ActKind.tanh
  else if name = "relu" then some ActKind.relu
  else if name = "relu6" then some ActKind.relu6
  else if name = "crelu" then some ActKind.crelu
  else if name = "elu" then some ActKind.elu
  else if name = "selu" then some ActKind.selu
  else if name = "softplus" then some ActKind.softplus
  else if name = "softsign" then some ActKind.softsign
  else none

/-- The `_optimizers` lookup table (planner.py, lines 44-52). -/
def _optimizers (name : String) : Option OptKind :=
  if name = "Adadelta" then some OptKind.Adadelta
  else if name = "Adagrad" then some OptKind.Adagrad
  else if name = "Adam" then some OptKind.Adam
  else if name = "GradientDescent" then some OptKind.GradientDescent
  else if name = "ProximalGradientDescent" then some OptKind.ProximalGradientDescent
  else if name = "ProximalAdagrad" then some OptKind.ProximalAdagrad
  else if name = "RMSProp" then some OptKind.RMSProp
  else none

/-! ## The model consumed by `PolicyOptimizer.build` (optimizer.py) -/

/-- The slice of the external compiled model that `PolicyOptimizer.build`
reads: the batch of total rewards, the per-step surrogate cost of each
trajectory in the batch, and the trainable kernel and bias tensors that the
regularizers are evaluated on. -/
structure Model where
  total_reward : List ℚ
  surrogate_batch_cost : List (List ℚ)
  kernels : List (List ℚ)
  biases : List (List ℚ)

/-- The graph constructed by `PolicyOptimizer.build` (optimizer.py, lines
46-60): reward statistics, the per-trajectory and scalar losses, the training
op (recorded as the optimizer kind paired with its learning rate — gradients
are a function of the loss and the trainable variables only) and the summary
scalars. -/
structure BuiltGraph where
  avg_total_reward : ℚ
  variance_total_reward : ℚ
  batch_loss : List ℚ
  loss : ℚ
  train_op : OptKind × ℚ
  summaries : List (String × ℚ)
deriving DecidableEq

/-- `PolicyOptimizer.build` (optimizer.py, lines 46-60) together with the
builder methods it invokes in order: `_build_reward_graph` (line 121,
`tf.nn.moments` over the batch axis), `_build_loss_graph` (lines 123-126,
per-trajectory sum then batch mean of the surrogate cost),
`_build_regularization_loss_graph` (lines 128-140, adds the kernel/bias
regularizer penalties to the loss) and `_build_summary_graph` (lines
148-151).  The `batch_size` and `horizon` parameters appear in the signature
exactly as in the source; the body never reads them. -/
def PolicyOptimizer.build (model : Model) (learning_rate : ℚ)
    (batch_size : ℕ) (horizon : ℕ) (optimizer : OptKind)
    (kernel_regularizer : Option (List ℚ → ℚ) := none)
    (bias_regularizer : Option (List ℚ → ℚ) := none) : BuiltGraph :=
  let avg := meanQ model.total_reward
  let var := meanQ (model.total_reward.map (fun r => (r - avg) ^ 2))
  let bl := model.surrogate_batch_cost.map List.sum
  let baseLoss := meanQ bl
  let lossK :=
    match kernel_regularizer with
    | none => baseLoss
    | some kreg => baseLoss + (model.kernels.map kreg).sum
  let lossKB :=
    match bias_regularizer with
    | none => lossK
    | some breg => lossK + (model.biases.map breg).sum
  { avg_total_reward := avg
    variance_total_reward := var
    batch_loss := bl
    loss := lossKB
    train_op := (optimizer, learning_rate)
    summaries := [("loss", lossKB), ("avg_total_reward", avg)] }

/-! ## The planner facade (planner.py) -/

/-- Configuration failure: an unknown name in one of the lookup tables, a
Python `KeyError`, named `ConfigurationError` in the error taxonomy. -/
inductive ConfigErr where
  | configurationError
deriving DecidableEq

/-- `PolicyOptimizationPlanner.__init__` (planner.py, lines 54-60): resolves
the activation name through `_non_linearities` while constructing the policy;
an unknown name raises at this lookup. -/
def PolicyOptimizationPlanner.mkPlanner (activation : String) :
    Except ConfigErr ActKind :=
  match _non_linearities activation with
  | none => Except.error ConfigErr.configurationError
  | some a => Except.ok a

/-- `PolicyOptimizationPlanner.build` (planner.py, lines 62-66): resolves the
optimizer and loss names and calls `PolicyOptimizer.build`, passing the
resolved loss lambda as the fifth positional argument — which is the
`kernel_regularizer` parameter of `PolicyOptimizer.build`; no
`bias_regularizer` is passed.  The name lookups happen while the arguments of
the call are evaluated, before `PolicyOptimizer.build` runs. -/
def PolicyOptimizationPlanner.build (model : Model) (learning_rate : ℚ)
    (batch_size : ℕ) (horizon : ℕ) (optimizer : String) (loss : String) :
    Except ConfigErr BuiltGraph :=
  match _optimizers optimizer with
  | none => Except.error ConfigErr.configurationError
  | some opt =>
    match _loss_fn loss with
    | none => Except.error ConfigErr.configurationError
    | some lfn =>
      Except.ok (PolicyOptimizer.build model learning_rate batch_size horizon
        opt (some lfn) none)

/-! ## The training loop `PolicyOptimizer.run` (optimizer.py, lines 62-117) -/

/-- The state the loop body of `PolicyOptimizer.run` mutates: the best reward
seen so far (`reward`, local to one call), the improvement histories `losses`
and `rewards`, the steps at which `self._model._policy.save` was called, and
the steps at which a summary was written to the test ("best") trace. -/
structure RunState where
  reward : ℚ
  losses : List (ℕ × ℚ)
  rewards : List (ℕ × ℚ)
  savedSteps : List ℕ
  testSummarySteps : List ℕ
deriving DecidableEq

/-- `-sys.maxsize` on a 64-bit CPython: the negative-infinity equivalent the
best reward is initialised with (optimizer.py, line 72). -/
def initialReward : ℚ := -(2 ^ 63 - 1)

/-- The state before the first loop iteration (optimizer.py, lines 72-74). -/
def initialRunState : RunState :=
  { reward := initialReward
    losses := []
    rewards := []
    savedSteps := []
    testSummarySteps := [] }

/-- One iteration of the training loop with `baseline_flag=False`
(optimizer.py, lines 87-113): given this step's loss and reward values, if
the reward strictly exceeds the best so far, update the best, append to both
histories, write the test-trace summary and save the policy; otherwise leave
the state unchanged. -/
def runStep (step : ℕ) (loss_ reward_ : ℚ) (s : RunState) : RunState :=
  if s.reward < reward_ then
    { reward := reward_
      losses := s.losses ++ [(step, loss_)]
      rewards := s.rewards ++ [(step, reward_)]
      savedSteps := s.savedSteps ++ [step]
      testSummarySteps := s.testSummarySteps ++ [step] }
  else s

/-- `PolicyOptimizer.run` after `build`, with `baseline_flag=False`: the
session results of step `n` are abstracted as `vals n = (loss, reward)`; the
loop processes steps `0, 1, ..., epochs-1` in order (`run vals (n+1)` runs
steps `0..n-1` and then iteration `n`). -/
def PolicyOptimizer.run (vals : ℕ → ℚ × ℚ) : ℕ → RunState
  | 0 => initialRunState
  | n + 1 => runStep n (vals n).1 (vals n).2 (PolicyOptimizer.run vals n)

/-- Failure of a loop iteration of `run` before `build`: the first
`sess.run([self._train_op, ...])` reads the attribute `self._train_op`, which
exists only after `build`; Python raises `AttributeError` — the `StateError`
of the spec's error taxonomy. -/
inductive RunErr where
  | stateError
deriving DecidableEq

/-- `PolicyOptimizer.run` including the dependence on `build`: everything
before the loop (session and writer construction, `hooks` setup, variable
initialisation) reads only attributes set in `__init__`, so it succeeds
whether or not `build` ran; each loop iteration starts with
`sess.run([self._train_op, self.loss, self.avg_total_reward])` and fails on
an unbuilt optimizer. -/
def PolicyOptimizer.runMethod (built : Bool) (vals : ℕ → ℚ × ℚ) :
    ℕ → Except RunErr RunState
  | 0 => Except.ok initialRunState
  | n + 1 =>
    match PolicyOptimizer.runMethod built vals n with
    | Except.error e => Except.error e
    | Except.ok s =>
      if built then Except.ok (runStep n (vals n).1 (vals n).2 s)
      else Except.error RunErr.stateError

/-- The running maximum that the claim calls "the best reward seen so far
within the run": the initial negative-infinity equivalent joined with the
rewards of all steps before `n`. -/
def bestBefore (vals : ℕ → ℚ × ℚ) : ℕ → ℚ
  | 0 => initialReward
  | n + 1 => max (bestBefore vals n) (vals n).2

/-! ## Hook lifecycle of `PolicyOptimizer.run` (optimizer.py, lines 206-219) -/

/-- The three calls the optimizer makes into a hook: `hook.setup(self,
model)`, `hook(sess, step)` and `hook.teardown()`. -/
inductive HookEvent where
  | setup
  | stepCall (step : ℕ)
  | teardown
deriving DecidableEq

/-- `_hooks_setup` / `_hooks_run` / `_hooks_teardown` each iterate over the
registered hooks in order; one such sweep over `nh` hooks emitting event `e`
for each hook index. -/
def hookEvents (nh : ℕ) (e : HookEvent) : List (ℕ × HookEvent) :=
  (List.range nh).map (fun i => (i, e))

/-- The loop of `run` viewed through its hook calls: iteration `step` first
runs the optimization step — abstracted as possibly failing, `fails step` —
and, only when it succeeds, ends with `self._hooks_run(sess, step)`; a
failure propagates immediately, skipping all later events.  Returns the
emitted `(hook index, event)` trace and whether the loop completed. -/
def runHooksLoop (nh : ℕ) (fails : ℕ → Bool) :
    ℕ → ℕ → List (ℕ × HookEvent) × Bool
  | _step, 0 => ([], true)
  | step, n + 1 =>
    if fails step then ([], false)
    else
      let r := runHooksLoop nh fails (step + 1) n
      (hookEvents nh (HookEvent.stepCall step) ++ r.1, r.2)

/-- `PolicyOptimizer.run` viewed through its hook calls (optimizer.py, lines
76, 113, 115): `_hooks_setup` before the loop, `_hooks_run` at the end of
each iteration, `_hooks_teardown` after the loop — reached only when the
loop completes normally, since no try/finally guards it. -/
def runWithHooks (nh : ℕ) (fails : ℕ → Bool) (epochs : ℕ) :
    List (ℕ × HookEvent) × Bool :=
  let r := runHooksLoop nh fails 0 epochs
  (hookEvents nh HookEvent.setup ++ r.1 ++
    (if r.2 then hookEvents nh HookEvent.teardown else []), r.2)

/-! ## Policy persistence (policy.py, lines 62-75) -/

/-- The attributes of `DeepReactivePolicy` that `save`/`restore` touch:
whether `self._saver` has been created, and `self._checkpoint` — an
attribute that exists only after a `save`, modelled as an `Option`. -/
structure PolicyState where
  saver : Bool
  checkpoint : Option String
deriving DecidableEq

/-- `DeepReactivePolicy.__init__` (policy.py, lines 28-39): `_saver` is set
to `None`; no `_checkpoint` attribute is created. -/
def DeepReactivePolicy.mkPolicy : PolicyState :=
  { saver := false, checkpoint := none }

/-- The layer-size-derived default checkpoint path of `save` (policy.py,
line 66): `/tmp/{name}/model.ckpt` with `name = drp-fc-layers=l1+l2+...`. -/
def defaultSavePath (layers : List ℕ) : String :=
  "/tmp/drp-fc-layers=" ++ String.intercalate "+" (layers.map toString)
    ++ "/model.ckpt"

/-- `DeepReactivePolicy.save` (policy.py, lines 62-68): creates the saver on
first use, defaults the path, records it in `self._checkpoint` and returns
it. -/
def DeepReactivePolicy.save (layers : List ℕ) (s : PolicyState)
    (save_path : Option String) : PolicyState × String :=
  let path := save_path.getD (defaultSavePath layers)
  ({ saver := true, checkpoint := some path }, path)

/-- The failure of `restore` with no known checkpoint: reading the absent
attribute `self._checkpoint` raises `AttributeError` — the `RestoreError` of
the spec's error taxonomy. -/
inductive RestoreErr where
  | restoreError
deriving DecidableEq

/-- `DeepReactivePolicy.restore` (policy.py, lines 70-75): with no explicit
path it falls back to `self._checkpoint`, which exists only after a prior
`save`; returns the path it restores from. -/
def DeepReactivePolicy.restore (s : PolicyState) (save_path : Option String) :
    Except RestoreErr String :=
  match save_path with
  | some p => Except.ok p
  | none =>
    match s.checkpoint with
    | some p => Except.ok p
    | none => Except.error RestoreErr.restoreError

/-! ## The bound transform of the policy output layer (policy.py, 148-164) -/

open Real in
/-- The logistic sigmoid `tf.sigmoid`. -/
noncomputable def tfSigmoid (x : ℝ) : ℝ := 1 / (1 + Real.exp (-x))

open Real in
/-- `DeepReactivePolicy._get_output_tensor` (policy.py, lines 148-164),
elementwise on one raw output value: with both bounds,
`lower + (upper - lower) * sigmoid(raw)`; with only a lower bound,
`lower + exp(raw)`; with only an upper bound, `upper - exp(raw)`; with no
bounds, the raw value.  The casts and `stop_gradient` of the source do not
change the value. -/
noncomputable def _get_output_tensor (tensor : ℝ) (bounds : Option ℝ × Option ℝ) : ℝ :=
  match bounds with
  | (some lower, some upper) => lower + (upper - lower) * tfSigmoid tensor
  | (some lower, none) => lower + Real.exp tensor
  | (none, some upper) => upper - Real.exp tensor
  | (none, none) => tensor

/-! ## Example inputs -/

/-- A concrete compiled model: one trajectory whose surrogate cost is `2`,
one trainable kernel of value `3`, no biases. -/
def exampleModel : Model :=
  { total_reward := [0], surrogate_batch_cost := [[2]], kernels := [[3]], biases := [] }

/-! ## Helper lemmas on the training loop -/

/-- The best-so-far variable of the loop equals the running maximum of the
per-step rewards. -/
theorem run_reward_eq_bestBefore (vals : ℕ → ℚ × ℚ) (n : ℕ) :
    (PolicyOptimizer.run vals n).reward = bestBefore vals n := by
  induction n with
  | zero => rfl
  | succ m ih =>
    simp only [PolicyOptimizer.run, runStep, bestBefore]
    split
    · rename_i h
      rw [ih] at h
      exact (max_eq_right h.le).symm
    · rename_i h
      rw [ih, not_lt] at h
      rw [ih]
      exact (max_eq_left h).symm

/-- Full characterisation of both improvement histories: an entry is appended
at step `s` exactly when the reward of step `s` strictly exceeds the running
maximum of all earlier rewards; moreover every recorded step is below the
epoch count and every recorded reward is at most the final running
maximum. -/
theorem run_histories_spec (vals : ℕ → ℚ × ℚ) (n : ℕ) :
    (∀ p ∈ (PolicyOptimizer.run vals n).rewards, p.1 < n ∧ p.2 ≤ bestBefore vals n) ∧
    (∀ step r, (step, r) ∈ (PolicyOptimizer.run vals n).rewards ↔
      step < n ∧ r = (vals step).2 ∧ bestBefore vals step < r) ∧
    (∀ step l, (step, l) ∈ (PolicyOptimizer.run vals n).losses ↔
      step < n ∧ l = (vals step).1 ∧ bestBefore vals step < (vals step).2) := by
  induction n with
  | zero =>
    refine ⟨?_, ?_, ?_⟩
    · intro p hp
      simp [PolicyOptimizer.run, initialRunState] at hp
    · intro step r
      simp [PolicyOptimizer.run, initialRunState]
    · intro step l
      simp [PolicyOptimizer.run, initialRunState]
  | succ m ih =>
    obtain ⟨ihB, ihR, ihL⟩ := ih
    by_cases h : (PolicyOptimizer.run vals m).reward < (vals m).2
    · have hb : bestBefore vals m < (vals m).2 := by
        rwa [run_reward_eq_bestBefore] at h
      have hrw : (PolicyOptimizer.run vals (m + 1)).rewards =
          (PolicyOptimizer.run vals m).rewards ++ [(m, (vals m).2)] := by
        simp only [PolicyOptimizer.run, runStep, if_pos h]
      have hlo : (PolicyOptimizer.run vals (m + 1)).losses =
          (PolicyOptimizer.run vals m).losses ++ [(m, (vals m).1)] := by
        simp only [PolicyOptimizer.run, runStep, if_pos h]
      refine ⟨?_, ?_, ?_⟩
      · intro p hp
        rw [hrw, List.mem_append] at hp
        rcases hp with hp | hp
        · obtain ⟨h1, h2⟩ := ihB p hp
          exact ⟨by omega, le_trans h2 (le_max_left _ _)⟩
        · simp only [List.mem_singleton] at hp
          subst hp
          exact ⟨Nat.lt_succ_self m, le_max_right _ _⟩
      · intro step r
        rw [hrw, List.mem_append]
        constructor
        · rintro (hp | hp)
          · obtain ⟨h1, h2, h3⟩ := (ihR step r).mp hp
            exact ⟨by omega, h2, h3⟩
          · simp only [List.mem_singleton, Prod.mk.injEq] at hp
            obtain ⟨h1, h2⟩ := hp
            subst h1
            subst h2
            exact ⟨by omega, rfl, hb⟩
        · rintro ⟨h1, h2, h3⟩
          by_cases hsm : step = m
          · subst hsm
            subst h2
            right
            simp
          · left
            exact (ihR step r).mpr ⟨by omega, h2, h3⟩
      · intro step l
        rw [hlo, List.mem_append]
        constructor
        · rintro (hp | hp)
          · obtain ⟨h1, h2, h3⟩ := (ihL step l).mp hp
            exact ⟨by omega, h2, h3⟩
          · simp only [List.mem_singleton, Prod.mk.injEq] at hp
            obtain ⟨h1, h2⟩ := hp
            subst h1
            subst h2
            exact ⟨by omega, rfl, hb⟩
        · rintro ⟨h1, h2, h3⟩
          by_cases hsm : step = m
          · subst hsm
            subst h2
            right
            simp
          · left
            exact (ihL step l).mpr ⟨by omega, h2, h3⟩
    · have hb : ¬ bestBefore vals m < (vals m).2 := by
        rwa [run_reward_eq_bestBefore] at h
      have hrw : (PolicyOptimizer.run vals (m + 1)).rewards =
          (PolicyOptimizer.run vals m).rewards := by
        simp only [PolicyOptimizer.run, runStep, if_neg h]
      have hlo : (PolicyOptimizer.run vals (m + 1)).losses =
          (PolicyOptimizer.run vals m).losses := by
        simp only [PolicyOptimizer.run, runStep, if_neg h]
      refine ⟨?_, ?_, ?_⟩
      · intro p hp
        rw [hrw] at hp
        obtain ⟨h1, h2⟩ := ihB p hp
        exact ⟨by omega, le_trans h2 (le_max_left _ _)⟩
      · intro step r
        rw [hrw, ihR step r]
        constructor
        · rintro ⟨h1, h2, h3⟩
          exact ⟨by omega, h2, h3⟩
        · rintro ⟨h1, h2, h3⟩
          refine ⟨?_, h2, h3⟩
          by_cases hsm : step = m
          · exfalso
            apply hb
            subst hsm
            rwa [h2] at h3
          · omega
      · intro step l
        rw [hlo, ihL step l]
        constructor
        · rintro ⟨h1, h2, h3⟩
          exact ⟨by omega, h2, h3⟩
        · rintro ⟨h1, h2, h3⟩
          refine ⟨?_, h2, h3⟩
          by_cases hsm : step = m
          · exfalso
            apply hb
            subst hsm
            exact h3
          · omega

/-- The policy is saved, and a test-trace ("best") summary written, at
exactly the steps recorded in the reward improvement history. -/
theorem run_saved_and_trace_steps (vals : ℕ → ℚ × ℚ) (n : ℕ) :
    (PolicyOptimizer.run vals n).savedSteps =
      (PolicyOptimizer.run vals n).rewards.map Prod.fst ∧
    (PolicyOptimizer.run vals n).testSummarySteps =
      (PolicyOptimizer.run vals n).rewards.map Prod.fst := by
  induction n with
  | zero => exact ⟨rfl, rfl⟩
  | succ m ih =>
    obtain ⟨h1, h2⟩ := ih
    simp only [PolicyOptimizer.run, runStep]
    split
    · simp [h1, h2]
    · exact ⟨h1, h2⟩

/-- The recorded steps are strictly increasing and the recorded rewards are
monotonically non-decreasing. -/
theorem run_rewards_chains (vals : ℕ → ℚ × ℚ) (n : ℕ) :
    List.Chain' (· < ·) ((PolicyOptimizer.run vals n).rewards.map Prod.fst) ∧
    List.Chain' (· ≤ ·) ((PolicyOptimizer.run vals n).rewards.map Prod.snd) := by
  induction n with
  | zero => exact ⟨List.chain'_nil, List.chain'_nil⟩
  | succ m ih =>
    obtain ⟨c1, c2⟩ := ih
    by_cases h : (PolicyOptimizer.run vals m).reward < (vals m).2
    · have hb : bestBefore vals m < (vals m).2 := by
        rwa [run_reward_eq_bestBefore] at h
      have hrw : (PolicyOptimizer.run vals (m + 1)).rewards =
          (PolicyOptimizer.run vals m).rewards ++ [(m, (vals m).2)] := by
        simp only [PolicyOptimizer.run, runStep, if_pos h]
      rw [hrw, List.map_append, List.map_append]
      constructor
      · refine List.Chain'.append c1 (by simp) ?_
        intro x hx y hy
        simp only [List.map_cons, List.map_nil, List.head?_cons, Option.mem_def,
          Option.some.injEq] at hy
        subst hy
        rw [List.getLast?_map, Option.mem_def, Option.map_eq_some'] at hx
        obtain ⟨p, hp, hx⟩ := hx
        subst hx
        have hpm : p ∈ (PolicyOptimizer.run vals m).rewards :=
          List.mem_of_mem_getLast? (by simp [hp])
        exact ((run_histories_spec vals m).1 p hpm).1
      · refine List.Chain'.append c2 (by simp) ?_
        intro x hx y hy
        simp only [List.map_cons, List.map_nil, List.head?_cons, Option.mem_def,
          Option.some.injEq] at hy
        subst hy
        rw [List.getLast?_map, Option.mem_def, Option.map_eq_some'] at hx
        obtain ⟨p, hp, hx⟩ := hx
        subst hx
        have hpm : p ∈ (PolicyOptimizer.run vals m).rewards :=
          List.mem_of_mem_getLast? (by simp [hp])
        exact le_of_lt (lt_of_le_of_lt ((run_histories_spec vals m).1 p hpm).2 hb)
    · have hrw : (PolicyOptimizer.run vals (m + 1)).rewards =
          (PolicyOptimizer.run vals m).rewards := by
        simp only [PolicyOptimizer.run, runStep, if_neg h]
      rw [hrw]
      exact ⟨c1, c2⟩

/-! ## Claim theorems -/

/-- C3: in every `Optimizer.run`, an entry is recorded in the improvement
histories exactly when that step's reward strictly exceeds the best reward
seen so far within the run (the best starting from the negative-infinity
equivalent `-sys.maxsize`); at each such step the policy's parameters are
persisted and a "best" trace entry is written; the recorded reward values are
monotonically non-decreasing across entries and the recorded steps are
strictly increasing. -/
theorem C3_improvement_recording (vals : ℕ → ℚ × ℚ) (epochs : ℕ) :
    (∀ step r, (step, r) ∈ (PolicyOptimizer.run vals epochs).rewards ↔
      step < epochs ∧ r = (vals step).2 ∧ bestBefore vals step < r) ∧
    (∀ step l, (step, l) ∈ (PolicyOptimizer.run vals epochs).losses ↔
      step < epochs ∧ l = (vals step).1 ∧ bestBefore vals step < (vals step).2) ∧
    (PolicyOptimizer.run vals epochs).savedSteps =
      (PolicyOptimizer.run vals epochs).rewards.map Prod.fst ∧
    (PolicyOptimizer.run vals epochs).testSummarySteps =
      (PolicyOptimizer.run vals epochs).rewards.map Prod.fst ∧
    List.Chain' (· ≤ ·) ((PolicyOptimizer.run vals epochs).rewards.map Prod.snd) ∧
    List.Chain' (· < ·) ((PolicyOptimizer.run vals epochs).rewards.map Prod.fst) :=
  ⟨(run_histories_spec vals epochs).2.1, (run_histories_spec vals epochs).2.2,
    (run_saved_and_trace_steps vals epochs).1, (run_saved_and_trace_steps vals epochs).2,
    (run_rewards_chains vals epochs).2, (run_rewards_chains vals epochs).1⟩

/-- C4: running with `epochs = 0` returns two empty improvement histories
and succeeds, whether or not `build` has been called. -/
theorem C4_zero_epochs (built : Bool) (vals : ℕ → ℚ × ℚ) :
    PolicyOptimizer.runMethod built vals 0 = Except.ok initialRunState ∧
    (PolicyOptimizer.run vals 0).losses = [] ∧
    (PolicyOptimizer.run vals 0).rewards = [] :=
  ⟨rfl, rfl, rfl⟩

/-- C5 counterexample: calling `run` before `build` does not always fail —
with `epochs = 0` the loop body never executes, no built attribute is read,
and the call returns the empty histories. -/
theorem C5_run_unbuilt_zero_epochs_ok :
    PolicyOptimizer.runMethod false (fun _ => (0, 0)) 0 = Except.ok initialRunState :=
  rfl

/-- C5 (amended): calling `run` before `build` with at least one epoch fails
with the `StateError` of the taxonomy (the `AttributeError` raised by the
first read of the unbuilt `self._train_op`). -/
theorem C5_run_unbuilt_errors (vals : ℕ → ℚ × ℚ) (epochs : ℕ) (h : 1 ≤ epochs) :
    PolicyOptimizer.runMethod false vals epochs = Except.error RunErr.stateError := by
  obtain ⟨n, rfl⟩ : ∃ n, epochs = n + 1 := ⟨epochs - 1, by omega⟩
  cases hres : PolicyOptimizer.runMethod false vals n with
  | error e =>
    cases e
    simp [PolicyOptimizer.runMethod, hres]
  | ok s =>
    simp [PolicyOptimizer.runMethod, hres]

/-- C5 witness: the amended claim at one epoch. -/
theorem C5_run_unbuilt_errors_witness :
    PolicyOptimizer.runMethod false (fun _ => (1, 1)) 1 = Except.error RunErr.stateError :=
  C5_run_unbuilt_errors (fun _ => (1, 1)) 1 (by decide)

/-- C7: restoring a freshly constructed policy with no path argument and no
prior persisted checkpoint fails with `RestoreError` (the `AttributeError`
on the absent `self._checkpoint`). -/
theorem C7_restore_without_checkpoint :
    DeepReactivePolicy.restore DeepReactivePolicy.mkPolicy none =
      Except.error RestoreErr.restoreError :=
  rfl

/-- C9: `PolicyOptimizer.build` never reads its `batch_size` and `horizon`
parameters, so two builds on the same model that differ only in those two
arguments construct identical objectives, optimization steps and
summaries. -/
theorem C9_build_ignores_batch_horizon (model : Model) (learning_rate : ℚ)
    (b h b' h' : ℕ) (optimizer : OptKind)
    (kreg breg : Option (List ℚ → ℚ)) :
    PolicyOptimizer.build model learning_rate b h optimizer kreg breg =
      PolicyOptimizer.build model learning_rate b' h' optimizer kreg breg :=
  rfl

/-- C10: the two improvement histories returned by `run` always have equal
length and pairwise equal step components, because both are appended
together on each strict reward improvement. -/
theorem C10_histories_aligned (vals : ℕ → ℚ × ℚ) (epochs : ℕ) :
    (PolicyOptimizer.run vals epochs).losses.length =
      (PolicyOptimizer.run vals epochs).rewards.length ∧
    (PolicyOptimizer.run vals epochs).losses.map Prod.fst =
      (PolicyOptimizer.run vals epochs).rewards.map Prod.fst := by
  induction epochs with
  | zero => exact ⟨rfl, rfl⟩
  | succ n ih =>
    obtain ⟨hlen, hmap⟩ := ih
    simp only [PolicyOptimizer.run, runStep]
    split
    · simp [hlen, hmap]
    · exact ⟨hlen, hmap⟩

/-- C6: an optimizer, activation or loss name absent from the fixed lookup
tables raises `ConfigurationError` (the `KeyError` of the dictionary
lookup); for `Planner.build` the error happens while the call's arguments
are evaluated, so the result does not depend on the `batch_size` and
`horizon` arguments and no graph is constructed. -/
theorem C6_unknown_name_errors (optName lossName act : String) (model : Model)
    (lr : ℚ) (b h b' h' : ℕ) :
    (_non_linearities act = none →
      PolicyOptimizationPlanner.mkPlanner act =
        Except.error ConfigErr.configurationError) ∧
    (_optimizers optName = none →
      PolicyOptimizationPlanner.build model lr b h optName lossName =
        Except.error ConfigErr.configurationError ∧
      PolicyOptimizationPlanner.build model lr b h optName lossName =
        PolicyOptimizationPlanner.build model lr b' h' optName lossName) ∧
    (_loss_fn lossName = none →
      PolicyOptimizationPlanner.build model lr b h optName lossName =
        Except.error ConfigErr.configurationError ∧
      PolicyOptimizationPlanner.build model lr b h optName lossName =
        PolicyOptimizationPlanner.build model lr b' h' optName lossName) := by
  refine ⟨?_, ?_, ?_⟩
  · intro hact
    unfold PolicyOptimizationPlanner.mkPlanner
    rw [hact]
  · intro hopt
    unfold PolicyOptimizationPlanner.build
    rw [hopt]
    exact ⟨rfl, rfl⟩
  · intro hloss
    unfold PolicyOptimizationPlanner.build
    cases _optimizers optName with
    | none => exact ⟨rfl, rfl⟩
    | some opt =>
      rw [hloss]
      exact ⟨rfl, rfl⟩

/-- C6 witness: the unknown names `"swish"`, `"SGD"` and `"l2"` each fail,
at two different batch/horizon pairs. -/
theorem C6_unknown_name_errors_witness :
    PolicyOptimizationPlanner.mkPlanner "swish" =
      Except.error ConfigErr.configurationError ∧
    PolicyOptimizationPlanner.build exampleModel 1 8 5 "SGD" "linear" =
      Except.error ConfigErr.configurationError ∧
    PolicyOptimizationPlanner.build exampleModel 1 8 5 "RMSProp" "l2" =
      Except.error ConfigErr.configurationError ∧
    PolicyOptimizationPlanner.build exampleModel 1 8 5 "RMSProp" "l2" =
      PolicyOptimizationPlanner.build exampleModel 1 16 20 "RMSProp" "l2" :=
  ⟨(C6_unknown_name_errors "SGD" "l2" "swish" exampleModel 1 8 5 16 20).1 (by decide),
    ((C6_unknown_name_errors "SGD" "linear" "swish" exampleModel 1 8 5 16 20).2.1
      (by decide)).1,
    ((C6_unknown_name_errors "RMSProp" "l2" "swish" exampleModel 1 8 5 16 20).2.2
      rfl).1,
    ((C6_unknown_name_errors "RMSProp" "l2" "swish" exampleModel 1 8 5 16 20).2.2
      rfl).2⟩

/-- C1: the loss selected through `Planner.build` is not applied to the
surrogate cost.  `planner.py` passes `self._loss_fn[loss]` as the fifth
positional argument of `PolicyOptimizer.build`, whose fifth parameter is
`kernel_regularizer`; the training loss is therefore the plain batch mean of
the per-trajectory surrogate-cost sums plus the selected loss function
evaluated on every trainable kernel.  On a model with one trajectory of
surrogate cost `2` and one kernel of value `3`, building with
`loss = "mse"` yields the loss `2 + 3^2 = 11`, whereas the claim's loss —
`mse` applied to the batch-mean surrogate cost — is `2^2 = 4`. -/
theorem C1_loss_kind_applied_to_kernels :
    (PolicyOptimizationPlanner.build exampleModel 1 8 5 "RMSProp" "mse").map
      (fun g => g.loss) = Except.ok 11 ∧
    lossApply LossKind.mse
      [meanQ (exampleModel.surrogate_batch_cost.map List.sum)] = 4 ∧
    (PolicyOptimizationPlanner.build exampleModel 1 8 5 "RMSProp" "mse").map
      (fun g => g.loss) ≠
      Except.ok (lossApply LossKind.mse
        [meanQ (exampleModel.surrogate_batch_cost.map List.sum)]) := by
  have hpb : PolicyOptimizationPlanner.build exampleModel 1 8 5 "RMSProp" "mse" =
      Except.ok (PolicyOptimizer.build exampleModel 1 8 5 OptKind.RMSProp
        (some (lossApply LossKind.mse)) none) := rfl
  have hloss : (PolicyOptimizer.build exampleModel 1 8 5 OptKind.RMSProp
      (some (lossApply LossKind.mse)) none).loss = 11 := by
    norm_num [PolicyOptimizer.build, exampleModel, lossApply, lossElem, meanQ]
  have hclaim : lossApply LossKind.mse
      [meanQ (exampleModel.surrogate_batch_cost.map List.sum)] = 4 := by
    norm_num [exampleModel, lossApply, lossElem, meanQ]
  refine ⟨?_, hclaim, ?_⟩
  · rw [hpb]
    simp only [Except.map]
    rw [hloss]
  · rw [hpb, hclaim]
    simp only [Except.map]
    rw [hloss]
    intro hcontra
    have h11 : (11 : ℚ) = 4 := Except.ok.inj hcontra
    norm_num at h11

/-- The logistic sigmoid takes values strictly between 0 and 1. -/
theorem tfSigmoid_pos (x : ℝ) : 0 < tfSigmoid x := by
  unfold tfSigmoid
  positivity

/-- The logistic sigmoid is strictly below 1. -/
theorem tfSigmoid_lt_one (x : ℝ) : tfSigmoid x < 1 := by
  unfold tfSigmoid
  rw [div_lt_one (by positivity)]
  linarith [Real.exp_pos (-x)]

/-- C2: for every finite raw output value, the bound transform of
`Policy.Evaluate` yields `lower + (upper-lower)*sigmoid(raw)` strictly
inside `(lower, upper)` when both bounds are present with `lower < upper`;
`lower + exp(raw)`, strictly above `lower`, with only a lower bound;
`upper - exp(raw)`, strictly below `upper`, with only an upper bound; and
the raw value unchanged with no bounds. -/
theorem C2_bound_transform (lower upper raw : ℝ) :
    (lower < upper →
      _get_output_tensor raw (some lower, some upper) =
        lower + (upper - lower) * tfSigmoid raw ∧
      lower < _get_output_tensor raw (some lower, some upper) ∧
      _get_output_tensor raw (some lower, some upper) < upper) ∧
    (_get_output_tensor raw (some lower, none) = lower + Real.exp raw ∧
      lower < _get_output_tensor raw (some lower, none)) ∧
    (_get_output_tensor raw (none, some upper) = upper - Real.exp raw ∧
      _get_output_tensor raw (none, some upper) < upper) ∧
    _get_output_tensor raw (none, none) = raw := by
  refine ⟨fun hlt => ⟨rfl, ?_, ?_⟩, ⟨rfl, ?_⟩, ⟨rfl, ?_⟩, rfl⟩
  · have hm : 0 < (upper - lower) * tfSigmoid raw :=
      mul_pos (sub_pos.mpr hlt) (tfSigmoid_pos raw)
    show lower < lower + (upper - lower) * tfSigmoid raw
    linarith
  · have hm : (upper - lower) * tfSigmoid raw < upper - lower :=
      mul_lt_of_lt_one_right (sub_pos.mpr hlt) (tfSigmoid_lt_one raw)
    show lower + (upper - lower) * tfSigmoid raw < upper
    linarith
  · have he : 0 < Real.exp raw := Real.exp_pos raw
    show lower < lower + Real.exp raw
    linarith
  · have he : 0 < Real.exp raw := Real.exp_pos raw
    show upper - Real.exp raw < upper
    linarith

/-- C2 witness: the transform at `lower = 0`, `upper = 1`, `raw = 0`. -/
theorem C2_bound_transform_witness :
    ((0 : ℝ) < _get_output_tensor 0 (some 0, some 1) ∧
      _get_output_tensor 0 (some 0, some 1) < 1) ∧
    ((0 : ℝ) < _get_output_tensor 0 (some 0, none)) ∧
    (_get_output_tensor 0 (none, some 1) < 1) ∧
    _get_output_tensor 0 (none, none) = 0 := by
  have h := C2_bound_transform 0 1 0
  exact ⟨⟨(h.1 (by norm_num)).2.1, (h.1 (by norm_num)).2.2⟩,
    h.2.1.2, h.2.2.1.2, h.2.2.2⟩

/-- When no step in the window fails, the loop emits one per-hook sweep of
step events for each step, in step order, and completes. -/
theorem runHooksLoop_ok (nh : ℕ) (fails : ℕ → Bool) (n : ℕ) :
    ∀ step, (∀ k, step ≤ k → k < step + n → fails k = false) →
      runHooksLoop nh fails step n =
        ((List.range' step n).flatMap (fun s => hookEvents nh (HookEvent.stepCall s)),
          true) := by
  induction n with
  | zero =>
    intro step _
    rfl
  | succ m ih =>
    intro step h
    have h0 : fails step = false := h step le_rfl (by omega)
    simp only [runHooksLoop, h0, Bool.false_eq_true, if_false]
    rw [ih (step + 1) (fun k h1 h2 => h k (by omega) (by omega))]
    rw [List.range'_succ, List.flatMap_cons]

/-- When step `k` is the first failing step in the window, the loop emits
the step sweeps for the steps before `k` only and reports failure. -/
theorem runHooksLoop_fail (nh : ℕ) (fails : ℕ → Bool) (n : ℕ) :
    ∀ step k, step ≤ k → k < step + n → fails k = true →
      (∀ j, step ≤ j → j < k → fails j = false) →
      runHooksLoop nh fails step n =
        ((List.range' step (k - step)).flatMap
          (fun s => hookEvents nh (HookEvent.stepCall s)), false) := by
  induction n with
  | zero =>
    intro step k h1 h2 _ _
    omega
  | succ m ih =>
    intro step k h1 h2 hf hmin
    by_cases hsk : k = step
    · subst hsk
      simp only [runHooksLoop, hf, if_true, Nat.sub_self, List.range'_zero,
        List.flatMap_nil]
    · have h0 : fails step = false := hmin step le_rfl (by omega)
      simp only [runHooksLoop, h0, Bool.false_eq_true, if_false]
      rw [ih (step + 1) k (by omega) (by omega) hf
        (fun j hj1 hj2 => hmin j (by omega) hj2)]
      have hks : k - step = (k - (step + 1)) + 1 := by omega
      rw [hks, List.range'_succ, List.flatMap_cons]

/-- C8: in every `run` with `nh` registered hooks, each hook's `setup` is
called exactly once before the first step; the per-step callbacks are called
once per executed step, in strictly increasing step order; `teardown` is
called exactly once after the loop when every step succeeds, and is not
called when a failing step aborts the loop. -/
theorem C8_hook_lifecycle (nh : ℕ) (fails : ℕ → Bool) (epochs : ℕ) :
    ((∀ k, k < epochs → fails k = false) →
      runWithHooks nh fails epochs =
        (hookEvents nh HookEvent.setup ++
          (List.range epochs).flatMap (fun s => hookEvents nh (HookEvent.stepCall s)) ++
          hookEvents nh HookEvent.teardown, true)) ∧
    (∀ k, k < epochs → fails k = true → (∀ j, j < k → fails j = false) →
      runWithHooks nh fails epochs =
        (hookEvents nh HookEvent.setup ++
          (List.range k).flatMap (fun s => hookEvents nh (HookEvent.stepCall s)),
          false)) := by
  constructor
  · intro h
    unfold runWithHooks
    rw [runHooksLoop_ok nh fails epochs 0 (fun k _ h2 => h k (by omega))]
    rw [List.range_eq_range']
    simp
  · intro k hk hf hmin
    unfold runWithHooks
    rw [runHooksLoop_fail nh fails epochs 0 k (by omega) (by omega) hf
      (fun j _ hj => hmin j hj)]
    rw [List.range_eq_range']
    simp

/-- C8 witness: one hook, one epoch; a run with no failure emits
setup, the step-0 callback and teardown; a run whose first step fails emits
setup only and no teardown. -/
theorem C8_hook_lifecycle_witness :
    runWithHooks 1 (fun _ => false) 1 =
      ([(0, HookEvent.setup), (0, HookEvent.stepCall 0), (0, HookEvent.teardown)],
        true) ∧
    runWithHooks 1 (fun _ => true) 1 = ([(0, HookEvent.setup)], false) := by
  constructor
  · have h := (C8_hook_lifecycle 1 (fun _ => false) 1).1 (fun k _ => rfl)
    rw [h]
    decide
  · have h := (C8_hook_lifecycle 1 (fun _ => true) 1).2 0 (by omega) rfl
      (fun j hj => absurd hj (by omega))
    rw [h]
    decide
